import Mathlib

/-!
Verification development for the UBC-workday-to-calendar repository.

The JavaScript sources `src/js/parser.js` (object `WorkdayParser`) and
`src/js/icsGenerator.js` (object `ICSGenerator`) are shallowly embedded below.
Strings are modelled through their character lists; JavaScript regular
expressions are modelled by bespoke backtracking matchers that reproduce the
leftmost-match / first-alternative / greedy-with-backtracking semantics of the
concrete regex literals appearing in the source; `null`/`undefined` results are
modelled with `Option`, and a thrown `TypeError` with `Except.error`.
JavaScript numbers appearing in the code are integers throughout (day serials,
hours, hash values), so they are modelled with `Nat`/`Int`, with 32-bit
wrap-around made explicit where the source relies on it (`simpleHash`).
-/

namespace UBCCal

/-! ### Generic character/list helpers (JS string primitives) -/

/-- JS whitespace class `\s` restricted to the ASCII characters that can occur
in the inputs considered here. -/
def jsWs (c : Char) : Bool :=
  c = ' ' ∨ c = '\t' ∨ c = '\n' ∨ c = '\r' ∨ c = '\x0b' ∨ c = '\x0c'

/-- `String.prototype.toLowerCase` (ASCII). -/
def toLowerL (l : List Char) : List Char := l.map Char.toLower

/-- `String.prototype.toUpperCase` (ASCII). -/
def toUpperL (l : List Char) : List Char := l.map Char.toUpper

/-- `String.prototype.trim`. -/
def trimL (l : List Char) : List Char :=
  ((l.dropWhile jsWs).reverse.dropWhile jsWs).reverse

/-- Does `pat` occur at the head of `l`? -/
def startsL : List Char → List Char → Bool
  | [], _ => true
  | _ :: _, [] => false
  | p :: ps, c :: cs => p = c && startsL ps cs

/-- Case-insensitive `startsL`. -/
def startsCIL (pat l : List Char) : Bool :=
  startsL (toLowerL pat) (toLowerL (l.take pat.length))

/-- `String.prototype.includes` for a substring. -/
def containsSub : List Char → List Char → Bool
  | big, pat =>
    if startsL pat big then true
    else
      match big with
      | [] => false
      | _ :: t => containsSub t pat

/-- Boolean membership via decidable equality. -/
def memB {α : Type} [DecidableEq α] (v : α) (l : List α) : Bool :=
  l.any (fun x => x = v)

/-- `parseInt(s, 10)` on a digit string. -/
def digitsToNat (l : List Char) : Nat :=
  l.foldl (fun a c => a * 10 + (c.toNat - 48)) 0

/-- `String.prototype.split(/\s+/)`: pieces between maximal whitespace runs,
including an empty leading/trailing piece when the string starts/ends with
whitespace, as in JavaScript.  Single pass; the state is
(finished pieces, current piece reversed, previous char was whitespace). -/
def splitWs (l : List Char) : List (List Char) :=
  let st := l.foldl
    (fun (st : List (List Char) × List Char × Bool) c =>
      if jsWs c then
        if st.2.2 then st else (st.1 ++ [st.2.1.reverse], [], true)
      else (st.1, c :: st.2.1, false))
    ([], [], false)
  st.1 ++ [st.2.1.reverse]

/-- `String.prototype.split('|')` (single-character separator). -/
def splitCharGo (sep : Char) : List Char → List Char → List (List Char)
  | [], cur => [cur.reverse]
  | c :: rest, cur =>
    if c = sep then cur.reverse :: splitCharGo sep rest []
    else splitCharGo sep rest (c :: cur)

def splitChar (sep : Char) (l : List Char) : List (List Char) := splitCharGo sep l []

/-- Replace every occurrence of the literal `pat` (non-empty) by `rep`,
scanning left to right without overlap (`String.prototype.replace` with a
global literal pattern). The `fuel` is the length of the scanned list. -/
def replaceSubGo (pat rep : List Char) : Nat → List Char → List Char
  | _, [] => []
  | 0, l => l
  | fuel + 1, l@(c :: rest) =>
    if startsL pat l ∧ pat ≠ [] then
      rep ++ replaceSubGo pat rep fuel (l.drop pat.length)
    else
      c :: replaceSubGo pat rep fuel rest

def replaceSub (pat rep l : List Char) : List Char :=
  replaceSubGo pat rep l.length l

/-- Join a list of strings with a separator (`Array.prototype.join`). -/
def joinSep (sep : String) : List String → String
  | [] => ""
  | [s] => s
  | s :: rest => s ++ sep ++ joinSep sep rest

/-! ### Proleptic Gregorian calendar arithmetic

`new Date(ms)` / `getUTCFullYear` / `getUTCMonth` / `getUTCDate`, and the
local-date day stepping done by `findFirstOccurrence`, reduce to conversions
between a civil date and a count of days since 1970-01-01.  These are the
standard `days_from_civil` / `civil_from_days` algorithms; `Int.tdiv` is used
where the original C-style algorithm relies on truncated division (all
divisions below act on non-negative operands thanks to the era shifts). -/

structure CalDate where
  year : Int
  month : Int
  day : Int
deriving DecidableEq, Repr

/-- Days since 1970-01-01 of the (linearly normalized) civil date `y-m-d`,
for `1 ≤ m ≤ 12` and arbitrary integer `d`. -/
def daysFromCivil (y m d : Int) : Int :=
  let y' := if m ≤ 2 then y - 1 else y
  let era := (if 0 ≤ y' then y' else y' - 399).tdiv 400
  let yoe := y' - era * 400
  let mp := (m + 9) % 12
  let doy := (153 * mp + 2).tdiv 5 + d - 1
  let doe := yoe * 365 + yoe.tdiv 4 - yoe.tdiv 100 + doy
  era * 146097 + doe - 719468

/-- Civil date of day number `z` (days since 1970-01-01). -/
def civilFromDays (z : Int) : CalDate :=
  let z' := z + 719468
  let era := (if 0 ≤ z' then z' else z' - 146096).tdiv 146097
  let doe := z' - era * 146097
  let yoe := (doe - doe.tdiv 1460 + doe.tdiv 36524 - doe.tdiv 146096).tdiv 365
  let y := yoe + era * 400
  let doy := doe - (365 * yoe + yoe.tdiv 4 - yoe.tdiv 100)
  let mp := (5 * doy + 2).tdiv 153
  let d := doy - (153 * mp + 2).tdiv 5 + 1
  let m := mp + (if mp < 10 then 3 else -9)
  { year := (if m ≤ 2 then y + 1 else y), month := m, day := d }

def dateToDays (d : CalDate) : Int := daysFromCivil d.year d.month d.day

/-- `Date.prototype.getDay` as a function of the day number:
1970-01-01 was a Thursday (`getDay() = 4`). -/
def weekdayOfDays (n : Int) : Int := (n + 4) % 7

/-! ### Data model -/

/-- RFC 5545 day codes, the fixed enumerated set produced by `parseDays`. -/
inductive DayCode
  | SU | MO | TU | WE | TH | FR | SA
deriving DecidableEq, Repr

def dayCodeStr : DayCode → String
  | .SU => "SU" | .MO => "MO" | .TU => "TU" | .WE => "WE"
  | .TH => "TH" | .FR => "FR" | .SA => "SA"

structure ClockTime where
  hours : Nat
  minutes : Nat
deriving DecidableEq, Repr

end UBCCal

namespace WorkdayParser

open UBCCal

/-! ### `parseDays` (parser.js lines 314-344) -/

/-- The `dayMap` object literal, in its JS insertion (iteration) order. -/
def dayMapList : List (List Char × DayCode) :=
  [ (['m'], .MO), (['m','o'], .MO), (['m','o','n'], .MO), ("monday".data, .MO),
    (['t'], .TU), (['t','u'], .TU), (['t','u','e'], .TU), ("tues".data, .TU), ("tuesday".data, .TU),
    (['w'], .WE), (['w','e'], .WE), (['w','e','d'], .WE), ("wednesday".data, .WE),
    (['t','h'], .TH), ("thu".data, .TH), ("thur".data, .TH), ("thurs".data, .TH), ("thursday".data, .TH), (['r'], .TH),
    (['f'], .FR), ("fri".data, .FR), ("friday".data, .FR),
    (['s'], .SA), (['s','a'], .SA), ("sat".data, .SA), ("saturday".data, .SA),
    (['s','u'], .SU), ("sun".data, .SU), ("sunday".data, .SU) ]

/-- The inner loop over `Object.entries(dayMap)`: the first key with
`token === key || (token.length > 1 && token.startsWith(key))` wins. -/
def matchDayToken (t : List Char) : Option DayCode :=
  (dayMapList.find? fun kv => t = kv.1 ∨ (1 < t.length ∧ startsL kv.1 t)).map (·.2)

/-- `daysStr.toLowerCase().replace(/[,|]/g, ' ').replace(/\./g, '')`. -/
def normalizeDaysStr (l : List Char) : List Char :=
  ((toLowerL l).map fun c => if c = ',' ∨ c = '|' then ' ' else c).filter (· ≠ '.')

def parseDaysL (l : List Char) : List DayCode :=
  (splitWs (normalizeDaysStr l)).foldl
    (fun acc t =>
      match matchDayToken t with
      | some v => if memB v acc then acc else acc ++ [v]
      | none => acc)
    []

def parseDays (s : String) : List DayCode := parseDaysL s.data

/-! ### `normalizeTime` (parser.js lines 363-388) -/

/-- Attempt of the regex `(\d{1,2}):(\d{2})\s*(AM|PM)?` at the current
position: one-or-two digits (greedy), a colon, exactly two digits, optional
whitespace, optional literal `AM`/`PM` (the input has been upper-cased before
matching, as in the source).  Returns (hours digits, minutes digits, period). -/
def timeAt (l : List Char) : Option (List Char × List Char × Option Char) :=
  let after : List Char → List Char → Option (List Char × List Char × Option Char) :=
    fun hd r =>
      match r with
      | ':' :: m1 :: m2 :: rest =>
        if m1.isDigit ∧ m2.isDigit then
          let rest' := rest.dropWhile jsWs
          let period : Option Char :=
            if startsL ['A', 'M'] rest' then some 'A'
            else if startsL ['P', 'M'] rest' then some 'P'
            else none
          some (hd, [m1, m2], period)
        else none
      | _ => none
  match l with
  | d1 :: d2 :: rest =>
    if d1.isDigit then
      if d2.isDigit then
        match after [d1, d2] rest with
        | some r => some r
        | none => after [d1] (d2 :: rest)
      else after [d1] (d2 :: rest)
    else none
  | [d1] => if d1.isDigit then after [d1] [] else none
  | [] => none

/-- Leftmost application of a positional matcher, as an unanchored JS regex. -/
def scanL {α : Type} (m : List Char → Option α) : List Char → Option α
  | [] => m []
  | l@(_ :: rest) =>
    match m l with
    | some r => some r
    | none => scanL m rest

def normalizeTimeL (l : List Char) : Option ClockTime :=
  if l = [] then none
  else
    let cleaned := (toUpperL (trimL l)).filter (· ≠ '.')
    let cleaned := if memB ':' cleaned then cleaned else cleaned ++ [':', '0', '0']
    match scanL timeAt cleaned with
    | none => none
    | some (hd, md, period) =>
      let hours := digitsToNat hd
      let minutes := digitsToNat md
      let hours :=
        if period = some 'P' ∧ hours ≠ 12 then hours + 12
        else if period = some 'A' ∧ hours = 12 then 0
        else hours
      some { hours := hours, minutes := minutes }

def normalizeTime (s : String) : Option ClockTime := normalizeTimeL s.data

/-! ### Regex building blocks

A positional matcher of type `CP` returns every way a regex component can
consume a prefix of the input, as (consumed, rest) pairs ordered by the JS
backtracking preference (greedy repetitions longest first, alternatives in
source order, optional components present first).  Sequencing explores the
earlier component's alternatives in outer order, exactly as a backtracking
regex engine does; taking the head of the final list therefore yields the
match a JS regex would produce at that position. -/

abbrev CP := List Char → List (List Char × List Char)

def epsP : CP := fun l => [([], l)]

def seqP (p q : CP) : CP := fun l =>
  (p l).flatMap fun pr => (q pr.2).map fun qr => (pr.1 ++ qr.1, qr.2)

def altP (p q : CP) : CP := fun l => p l ++ q l

/-- `X?` (greedy: present first). -/
def optP (p : CP) : CP := fun l => p l ++ [([], l)]

/-- A single character from a class. -/
def charP (f : Char → Bool) : CP := fun l =>
  match l with
  | c :: r => if f c then [([c], r)] else []
  | [] => []

/-- Exactly `n` characters from a class (`X{n}`). -/
def exactN (f : Char → Bool) (n : Nat) : CP := fun l =>
  let t := l.take n
  if t.length = n ∧ t.all f then [(t, l.drop n)] else []

/-- `X{lo,hi}` for a character class, greedy (longest candidates first). -/
def repRange (f : Char → Bool) (lo hi : Nat) : CP := fun l =>
  let run := (l.takeWhile f).length
  (List.range (hi + 1)).reverse.filterMap fun k =>
    if lo ≤ k ∧ k ≤ run then some (l.take k, l.drop k) else none

/-- `X*` / `X+` for a character class, greedy with backtracking: every prefix
of the maximal run, longest first, at least `lo` characters. -/
def repGE (f : Char → Bool) (lo : Nat) : CP := fun l =>
  let run := (l.takeWhile f).length
  (List.range (run + 1)).reverse.filterMap fun k =>
    if lo ≤ k then some (l.take k, l.drop k) else none

/-- A literal, case-sensitively. -/
def litP (s : List Char) : CP := fun l =>
  if startsL s l then [(l.take s.length, l.drop s.length)] else []

/-- A literal, case-insensitively (`/i` flag). -/
def litCIP (s : List Char) : CP := fun l =>
  if startsCIL s l then [(l.take s.length, l.drop s.length)] else []

def wsStar : CP := repGE jsWs 0
def wsPlus : CP := repGE jsWs 1

/-- First full parse (JS: the match chosen by the backtracking engine). -/
def firstP (p : CP) (l : List Char) : Option (List Char × List Char) := (p l).head?

/-! ### `parseDate` (parser.js lines 407-454) -/

/-- Attempt of `(\d{4})-(\d{2})-(\d{2})` at the current position. -/
def isoAt (l : List Char) : Option (List Char × List Char × List Char) :=
  (exactN Char.isDigit 4 l).findSome? fun (y, r1) =>
  (litP ['-'] r1).findSome? fun (_, r2) =>
  (exactN Char.isDigit 2 r2).findSome? fun (m, r3) =>
  (litP ['-'] r3).findSome? fun (_, r4) =>
  (exactN Char.isDigit 2 r4).findSome? fun (d, _) =>
  some (y, m, d)

/-- Attempt of `([A-Za-z]{3})[a-z]*\s+(\d{1,2})(?:,?\s+(\d{4}))?` (flag `/i`)
at the current position.  Returns (month letters, day digits, year digits?). -/
def textualDateAt (l : List Char) : Option (List Char × List Char × Option (List Char)) :=
  (exactN Char.isAlpha 3 l).findSome? fun (mon, r1) =>
  ((repGE Char.isAlpha 0) r1).findSome? fun (_, r2) =>
  (wsPlus r2).findSome? fun (_, r3) =>
  ((repRange Char.isDigit 1 2) r3).findSome? fun (dd, r4) =>
    let year? : Option (List Char) :=
      ((optP (litP [','])) r4).findSome? fun (_, r5) =>
      (wsPlus r5).findSome? fun (_, r6) =>
      ((exactN Char.isDigit 4) r6).findSome? fun (yy, _) => some yy
    some (mon, dd, year?)

/-- The `monthNames` table. -/
def monthLookup (l : List Char) : Option Int :=
  if l = "jan".data then some 1 else if l = "feb".data then some 2
  else if l = "mar".data then some 3 else if l = "apr".data then some 4
  else if l = "may".data then some 5 else if l = "jun".data then some 6
  else if l = "jul".data then some 7 else if l = "aug".data then some 8
  else if l = "sep".data then some 9 else if l = "oct".data then some 10
  else if l = "nov".data then some 11 else if l = "dec".data then some 12
  else none

/-- The guard `!isNaN(dateStr) && parseFloat(dateStr) > 20000`, modelled for
the non-negative integer literals that reach it in this development (both JS
predicates agree with this reading on digit strings). -/
def numericDigits (l : List Char) : Bool := ¬l.isEmpty ∧ l.all Char.isDigit

/-- `parseDate`.  `currentYear` models the `new Date().getFullYear()` read
used when a textual date omits its year. -/
def parseDateL (currentYear : Int) (l : List Char) : Option CalDate :=
  if l = [] then none
  else
    match scanL isoAt l with
    | some (y, m, d) =>
      some { year := digitsToNat y, month := digitsToNat m, day := digitsToNat d }
    | none =>
      if numericDigits l ∧ 20000 < digitsToNat l then
        -- new Date((serial - 25569) * 86400 * 1000), decomposed in UTC
        some (civilFromDays ((digitsToNat l : Int) - 25569))
      else
        match scanL textualDateAt l with
        | some (mon, dd, year?) =>
          match monthLookup (toLowerL mon) with
          | some m =>
            some { year := (match year? with
                            | some yy => (digitsToNat yy : Int)
                            | none => currentYear),
                   month := m, day := digitsToNat dd }
          | none => none
        | none => none

def parseDate (currentYear : Int) (s : String) : Option CalDate :=
  parseDateL currentYear s.data

/-! ### `parseTimeRange` and `parseDateRange` (parser.js lines 349-358, 393-402) -/

/-- Character class `[-–—to]` under `/i`: the dash variants plus the letters
`t`, `o` in either case. -/
def sepClass (c : Char) : Bool :=
  c = '-' ∨ c = '–' ∨ c = '—' ∨ c = 't' ∨ c = 'o' ∨ c = 'T' ∨ c = 'O'

/-- The time component `\d{1,2}(?::\d{2})?\s*(?:AM|PM|a\.m\.|p\.m\.)?` (`/i`). -/
def timeCompP : CP :=
  seqP (repRange Char.isDigit 1 2)
    (seqP (optP (seqP (litP [':']) (exactN Char.isDigit 2)))
      (seqP wsStar
        (optP (altP (litCIP "am".data) (altP (litCIP "pm".data)
          (altP (litCIP "a.m.".data) (litCIP "p.m.".data)))))))

/-- Attempt of `G\s*[-–—to]+\s*G` at the current position, returning both
captured components. -/
def rangeAt (G : CP) (l : List Char) : Option (List Char × List Char) :=
  (G l).findSome? fun (g1, r1) =>
  (wsStar r1).findSome? fun (_, r2) =>
  ((repGE sepClass 1) r2).findSome? fun (_, r3) =>
  (wsStar r3).findSome? fun (_, r4) =>
  ((G r4).head?).map fun (g2, _) => (g1, g2)

def timeRangeMatch (l : List Char) : Option (List Char × List Char) :=
  scanL (rangeAt timeCompP) l

def parseTimeRangeL (l : List Char) : Option ClockTime × Option ClockTime :=
  match timeRangeMatch l with
  | some (g1, g2) => (normalizeTimeL g1, normalizeTimeL g2)
  | none => (none, none)

def parseTimeRange (s : String) : Option ClockTime × Option ClockTime :=
  parseTimeRangeL s.data

/-- The date component of the date-range regex:
`[A-Za-z]{3}\s+\d{1,2}(?:,?\s+\d{4})?|\d{4}-\d{2}-\d{2}`. -/
def dateCompP : CP :=
  altP
    (seqP (exactN Char.isAlpha 3)
      (seqP wsPlus
        (seqP (repRange Char.isDigit 1 2)
          (optP (seqP (optP (litP [','])) (seqP wsPlus (exactN Char.isDigit 4)))))))
    (seqP (exactN Char.isDigit 4)
      (seqP (litP ['-'])
        (seqP (exactN Char.isDigit 2)
          (seqP (litP ['-']) (exactN Char.isDigit 2)))))

def dateRangeMatch (l : List Char) : Option (List Char × List Char) :=
  scanL (rangeAt dateCompP) l

def parseDateRangeL (currentYear : Int) (l : List Char) :
    Option CalDate × Option CalDate :=
  match dateRangeMatch l with
  | some (g1, g2) => (parseDateL currentYear g1, parseDateL currentYear g2)
  | none => (none, none)

def parseDateRange (currentYear : Int) (s : String) :
    Option CalDate × Option CalDate :=
  parseDateRangeL currentYear s.data

/-! ### `parsePatternWithRegex` (parser.js lines 270-309) -/

/-- Regex word character `\w`. -/
def isWordChar (c : Char) : Bool := c.isAlpha ∨ c.isDigit ∨ c = '_'

def wordCharAt (l : List Char) : Bool :=
  match l.head? with
  | some c => isWordChar c
  | none => false

/-- The alternation of the day-token regex
`\b(Monday|...|Sunday|Mon|...|Sun|Mo|...|Su)\b`, in source order. -/
def dayWords : List (List Char) :=
  [ "monday".data, "tuesday".data, "wednesday".data, "thursday".data,
    "friday".data, "saturday".data, "sunday".data,
    "mon".data, "tue".data, "wed".data, "thu".data, "fri".data, "sat".data, "sun".data,
    "mo".data, "tu".data, "we".data, "th".data, "fr".data, "sa".data, "su".data ]

/-- `str.match(/\b(...)\b/gi)`: all matched slices, scanning left to right,
alternatives tried in source order, continuing after each match.  The boolean
tracks whether the previous character was a word character (for `\b`). -/
def scanDayWords : Nat → List Char → Bool → List (List Char)
  | 0, _, _ => []
  | _ + 1, [], _ => []
  | fuel + 1, l@(c :: rest), prevWord =>
    if ¬prevWord then
      match dayWords.find? (fun w => startsCIL w l ∧ ¬wordCharAt (l.drop w.length)) with
      | some w => l.take w.length :: scanDayWords fuel (l.drop w.length) true
      | none => scanDayWords fuel rest (isWordChar c)
    else scanDayWords fuel rest (isWordChar c)

def dayTokenMatches (l : List Char) : List (List Char) :=
  scanDayWords (l.length + 1) l false

/-- Attempt of `\|\s*([^|]+)$` at the current position (the `\b`-free
location regex); returns the captured group. -/
def locAt (l : List Char) : Option (List Char) :=
  (litP ['|'] l).findSome? fun (_, r1) =>
  (wsStar r1).findSome? fun (_, r2) =>
  ((repGE (fun c => c ≠ '|') 1) r2).findSome? fun (g, r3) =>
  if r3 = [] then some g else none

/-- Attempt of the room capture `([A-Z0-9]{2,}\s+\d{2,})\b` at the current
position (case-sensitive; the leading `\b` is handled by the scanner). -/
def roomAt (l : List Char) : Option (List Char) :=
  ((repGE (fun c => c.isUpper ∨ c.isDigit) 2) l).findSome? fun (g1, r1) =>
  (wsPlus r1).findSome? fun (ws, r2) =>
  ((repGE Char.isDigit 2) r2).findSome? fun (g2, r3) =>
  if ¬wordCharAt r3 then some (g1 ++ ws ++ g2) else none

/-- Leftmost scan of a matcher that must start at a `\b` boundary. -/
def scanBoundary {α : Type} (m : List Char → Option α) :
    Nat → List Char → Bool → Option α
  | 0, _, _ => none
  | _ + 1, [], _ => none
  | fuel + 1, l@(c :: rest), prevWord =>
    if ¬prevWord then
      match m l with
      | some r => some r
      | none => scanBoundary m fuel rest (isWordChar c)
    else scanBoundary m fuel rest (isWordChar c)

def joinSpaces : List (List Char) → List Char
  | [] => []
  | [t] => t
  | t :: rest => t ++ [' '] ++ joinSpaces rest

structure MeetingPattern where
  days : List UBCCal.DayCode
  startTime : Option UBCCal.ClockTime := none
  endTime : Option UBCCal.ClockTime := none
  startDate : Option UBCCal.CalDate := none
  endDate : Option UBCCal.CalDate := none
  location : String := ""
  raw : String := ""
  error : Bool := false
deriving DecidableEq, Repr

/-- `parsePatternWithRegex`: the aggressive fallback extraction; always
returns a record. -/
def parsePatternWithRegex (currentYear : Int) (l : List Char) : MeetingPattern :=
  let dateMatch := dateRangeMatch l
  let timeMatch := timeRangeMatch l
  let dayMatches := dayTokenMatches l
  let location : List Char :=
    match scanL locAt l with
    | some g => g
    | none =>
      match scanBoundary roomAt (l.length + 1) l false with
      | some g => g
      | none => []
  let days := if dayMatches.isEmpty then [] else parseDaysL (joinSpaces dayMatches)
  let times :=
    match timeMatch with
    | some (a, b) => parseTimeRangeL (a ++ (' ' :: '-' :: ' ' :: b))
    | none => (none, none)
  let dates :=
    match dateMatch with
    | some (a, b) => parseDateRangeL currentYear (a ++ (' ' :: '-' :: ' ' :: b))
    | none => (none, none)
  { days := days,
    startTime := times.1, endTime := times.2,
    startDate := dates.1, endDate := dates.2,
    location := String.mk (trimL location) }

/-! ### `parseSinglePattern` (parser.js lines 238-265) -/

/-- The strict pipe-delimited branch (lines 244-257): split on `|`, trim the
fields, and succeed only when the day field yields at least one day code. -/
def strictParse (currentYear : Int) (l : List Char) : Option MeetingPattern :=
  let parts := (splitChar '|' l).map trimL
  if 2 ≤ parts.length then
    let days := parseDaysL (parts.headD [])
    let times := parseTimeRangeL ((parts.drop 1).headD [])
    let dates :=
      if 2 < parts.length then parseDateRangeL currentYear ((parts.drop 2).headD [])
      else (none, none)
    let loc := if 3 < parts.length then (parts.drop 3).headD [] else []
    if days ≠ [] then
      some { days := days,
             startTime := times.1, endTime := times.2,
             startDate := dates.1, endDate := dates.2,
             location := String.mk loc }
    else none
  else none

def parseSinglePatternL (currentYear : Int) (l : List Char) : Option MeetingPattern :=
  let r1 := if memB '|' l then strictParse currentYear l else none
  match r1 with
  | some r => some r
  | none => some (parsePatternWithRegex currentYear l)

def parseSinglePattern (currentYear : Int) (s : String) : Option MeetingPattern :=
  parseSinglePatternL currentYear s.data

/-! ### `parseMeetingPatterns` (parser.js lines 197-233) -/

/-- Attempt of `<br\s*\/?>` (under `/i`) at the current position; returns the
consumed length. -/
def brTagLen (l : List Char) : Option Nat :=
  match l with
  | a :: b :: r :: rest =>
    if a = '<' ∧ b.toLower = 'b' ∧ r.toLower = 'r' then
      let wsRun := (rest.takeWhile jsWs).length
      match rest.drop wsRun with
      | '/' :: '>' :: _ => some (3 + wsRun + 2)
      | '>' :: _ => some (3 + wsRun + 1)
      | _ => none
    else none
  | _ => none

/-- One unit of the first split alternative: `<br\s*\/?>` or `\n`. -/
def brOrNlLen (l : List Char) : Option Nat :=
  match brTagLen l with
  | some k => some k
  | none => if l.head? = some '\n' then some 1 else none

/-- Greedily consume units, returning (count, total length). -/
def unitsLen : Nat → List Char → Nat × Nat
  | 0, _ => (0, 0)
  | fuel + 1, l =>
    match brOrNlLen l with
    | some k =>
      let (c, t) := unitsLen fuel (l.drop (max k 1))
      (c + 1, t + max k 1)
    | none => (0, 0)

/-- Greedily consume `\r\n` pairs, returning (count, total length). -/
def crlfLen : Nat → List Char → Nat × Nat
  | 0, _ => (0, 0)
  | fuel + 1, l =>
    match l with
    | '\r' :: '\n' :: rest =>
      let (c, t) := crlfLen fuel rest
      (c + 1, t + 2)
    | _ => (0, 0)

/-- Attempt of the block-separator regex
`(?:<br\s*\/?>|\n){2,}|(?:\r\n){2,}|(?:\n\s*\n)` at the current position
(alternatives in source order); returns the length of the match. -/
def blockSepAt (l : List Char) : Option Nat :=
  let (c1, t1) := unitsLen (l.length + 1) l
  if 2 ≤ c1 then some t1
  else
    let (c2, t2) := crlfLen (l.length + 1) l
    if 2 ≤ c2 then some t2
    else
      match l with
      | '\n' :: r =>
        let run := (r.takeWhile jsWs).length
        (List.range (run + 1)).reverse.findSome? fun k =>
          if (r.drop k).head? = some '\n' then some (2 + k) else none
      | _ => none

/-- `String.prototype.split` with the separator regex above. -/
def splitBlocksGo : Nat → List Char → List Char → List (List Char) → List (List Char)
  | _, [], cur, acc => acc ++ [cur.reverse]
  | 0, l, cur, acc => acc ++ [cur.reverse ++ l]
  | fuel + 1, l@(c :: rest), cur, acc =>
    match blockSepAt l with
    | some k => splitBlocksGo fuel (l.drop (max k 1)) [] (acc ++ [cur.reverse])
    | none => splitBlocksGo fuel rest (c :: cur) acc

def splitBlocks (l : List Char) : List (List Char) :=
  splitBlocksGo (l.length + 1) l [] []

/-- `.replace(/<br\s*\/?>/g, ' ')`. -/
def replaceBrGo : Nat → List Char → List Char
  | _, [] => []
  | 0, l => l
  | fuel + 1, l@(c :: rest) =>
    match brTagLen l with
    | some k => ' ' :: replaceBrGo fuel (l.drop (max k 1))
    | none => c :: replaceBrGo fuel rest

def replaceBr (l : List Char) : List Char := replaceBrGo (l.length + 1) l

def parseMeetingPatternsL (currentYear : Int) (l : List Char) : List MeetingPattern :=
  if l = [] ∨ trimL l = [] then []
  else
    let clean := replaceSub "&amp;".data ['&'] (replaceSub "&nbsp;".data [' '] l)
    let blocks := (splitBlocks clean).map fun b =>
      trimL ((replaceBr b).map fun c => if c = '\n' then ' ' else c)
    let blocks := blocks.filter (· ≠ [])
    blocks.map fun b =>
      match parseSinglePatternL currentYear b with
      | some p => { p with raw := String.mk b }
      | none =>
        { days := [], startTime := none, endTime := none,
          startDate := none, endDate := none,
          location := "", raw := String.mk b, error := true }

def parseMeetingPatterns (currentYear : Int) (s : String) : List MeetingPattern :=
  parseMeetingPatternsL currentYear s.data

/-! ### `parseCourseTitle` (parser.js lines 175-190) -/

/-- Attempt of `^([A-Z]{2,4}\s*\d{3}[A-Z]?)\s*[-–—]\s*(.+)$` (flag `/i`,
anchored) : returns (group 1, group 2). -/
def courseTitleAt (l : List Char) : Option (List Char × List Char) :=
  ((repRange Char.isAlpha 2 4) l).findSome? fun (g1a, r1) =>
  (wsStar r1).findSome? fun (ws1, r2) =>
  ((exactN Char.isDigit 3) r2).findSome? fun (dg, r3) =>
  ((optP (charP Char.isAlpha)) r3).findSome? fun (oL, r4) =>
  (wsStar r4).findSome? fun (_, r5) =>
  ((charP fun c => c = '-' ∨ c = '–' ∨ c = '—') r5).findSome? fun (_, r6) =>
  (wsStar r6).findSome? fun (_, r7) =>
  if r7 ≠ [] ∧ ¬memB '\n' r7 then some (g1a ++ ws1 ++ dg ++ oL, r7) else none

def parseCourseTitle (s : String) : String × String :=
  if s = "" then ("Unknown", "")
  else
    match courseTitleAt s.data with
    | some (code, title) => (String.mk (toUpperL (trimL code)), String.mk (trimL title))
    | none => (String.mk (s.data.take 20), s)

/-! ### Rows (`parseRow`, `findColumnValue`, `filterDataRows`) -/

/-- A spreadsheet row: named cells in column order (`sheet_to_json` object). -/
abbrev Row := List (String × String)

/-- `row[name] || ''`. -/
def getCol (row : Row) (name : String) : String :=
  ((row.find? fun kv => kv.1 = name).map (·.2)).getD ""

/-- `findColumnValue` (parser.js lines 158-169): the first key (in column
order) equal, case-insensitively after trimming, to one of the aliases. -/
def findColumnValue (row : Row) (names : List String) : Option String :=
  (row.find? fun kv => names.any fun n =>
    trimL (toLowerL kv.1.data) = toLowerL n.data).map (·.2)

/-- JS truthiness of a possibly-missing string cell. -/
def jsTruthy (o : Option String) : Bool :=
  match o with
  | some s => s ≠ ""
  | none => false

structure CourseEvent where
  courseCode : String
  courseTitle : String
  sectionName : String
  format : String
  deliveryMode : String
  instructor : String
  days : List UBCCal.DayCode
  startTime : Option UBCCal.ClockTime := none
  endTime : Option UBCCal.ClockTime := none
  startDate : Option UBCCal.CalDate := none
  endDate : Option UBCCal.CalDate := none
  location : String := ""
  raw : String := ""
deriving DecidableEq, Repr

/-- `parseRow` (parser.js lines 64-153).  `currentYear` is threaded to
`parseDate` as in the whole development. -/
def parseRow (currentYear : Int) (row : Row) : List CourseEvent :=
  let courseListing := getCol row "Course Listing"
  let sectionV := getCol row "Section"
  let instructionalFormat := getCol row "Instructional Format"
  let deliveryMode := getCol row "Delivery Mode"
  let meetingPatternsStr := getCol row "Meeting Patterns"
  let instructor := getCol row "Instructor"
  let esd := findColumnValue row ["Start Date", "Meeting Start Date", "First Meeting Date"]
  let eed := findColumnValue row ["End Date", "Meeting End Date", "Last Meeting Date"]
  let est := findColumnValue row ["Start Time", "Meeting Start Time"]
  let eet := findColumnValue row ["End Time", "Meeting End Time"]
  let eDays := findColumnValue row ["Days", "Meeting Days", "Day Pattern"]
  let globalDates : Option (Option UBCCal.CalDate × Option UBCCal.CalDate) :=
    if jsTruthy esd ∧ jsTruthy eed then
      some (parseDate currentYear (esd.getD ""), parseDate currentYear (eed.getD ""))
    else none
  let globalTimes : Option (Option UBCCal.ClockTime × Option UBCCal.ClockTime) :=
    if jsTruthy est ∧ jsTruthy eet then
      some (normalizeTime (est.getD ""), normalizeTime (eet.getD ""))
    else none
  let globalDays : Option (List UBCCal.DayCode) :=
    if jsTruthy eDays then some (parseDays (eDays.getD "")) else none
  let courseInfo := parseCourseTitle courseListing
  let patterns := parseMeetingPatterns currentYear meetingPatternsStr
  let patterns :=
    if patterns.length = 0 ∨ (patterns.length = 1 ∧ (patterns.headD { days := [] }).error) then
      if globalDays.isSome ∨ globalDates.isSome ∨ globalTimes.isSome then
        -- synthesize one pattern from the explicit columns, falling back to
        -- whatever the (possibly flagged) first pattern recovered
        let base := patterns.headD { days := [] }
        [ { days := (match globalDays with
                     | some l => l
                     | none => base.days),
            startTime := (match globalTimes with
                          | some g => g.1
                          | none => none).orElse (fun _ => base.startTime),
            endTime := (match globalTimes with
                        | some g => g.2
                        | none => none).orElse (fun _ => base.endTime),
            startDate := (match globalDates with
                          | some g => g.1
                          | none => none).orElse (fun _ => base.startDate),
            endDate := (match globalDates with
                        | some g => g.2
                        | none => none).orElse (fun _ => base.endDate),
            location := base.location,
            raw := meetingPatternsStr } ]
      else patterns
    else
      patterns.map fun p =>
        { p with
          startDate := p.startDate.orElse fun _ =>
            (match globalDates with | some g => g.1 | none => none),
          endDate := p.endDate.orElse fun _ =>
            (match globalDates with | some g => g.2 | none => none),
          startTime := p.startTime.orElse fun _ =>
            (match globalTimes with | some g => g.1 | none => none),
          endTime := p.endTime.orElse fun _ =>
            (match globalTimes with | some g => g.2 | none => none),
          days := if p.days ≠ [] then p.days else globalDays.getD [] }
  if patterns = [] then []
  else
    patterns.map fun p =>
      { courseCode := courseInfo.1, courseTitle := courseInfo.2,
        sectionName := sectionV, format := instructionalFormat,
        deliveryMode := deliveryMode, instructor := instructor,
        days := p.days, startTime := p.startTime, endTime := p.endTime,
        startDate := p.startDate, endDate := p.endDate,
        location := p.location,
        raw := if p.raw ≠ "" then p.raw else meetingPatternsStr }

/-- `filterDataRows` (parser.js lines 47-58). -/
def filterDataRows (rows : List Row) : List Row :=
  rows.filter fun row =>
    ¬containsSub (toLowerL (getCol row "Course Listing").data) "course listing".data
    ∧ row.any fun kv => kv.2 ≠ ""

/-- The event-collecting loop of `parse` (parser.js lines 26-41), without the
external spreadsheet decoding. -/
def parseRows (currentYear : Int) (rows : List Row) : List CourseEvent :=
  ((filterDataRows rows).map (parseRow currentYear)).flatten

end WorkdayParser

namespace ICSGenerator

open UBCCal WorkdayParser

/-! ### icsGenerator.js -/

/-- `escapeText` (lines 216-222): backslash, semicolon, comma get a leading
backslash; a newline becomes the two-character sequence backslash-`n`. -/
def escapeText (s : String) : String :=
  String.mk (s.data.flatMap fun c =>
    if c = '\\' then ['\\', '\\']
    else if c = ';' then ['\\', ';']
    else if c = ',' then ['\\', ',']
    else if c = '\n' then ['\\', 'n']
    else [c])

/-- `String(n).padStart(2, '0')`. -/
def padStart2 (s : String) : String :=
  if s.length = 0 then "00" else if s.length = 1 then "0" ++ s else s

/-- `formatDateTime` (lines 154-162). -/
def formatDateTime (d : CalDate) (t : ClockTime) : String :=
  toString d.year ++ padStart2 (toString d.month) ++ padStart2 (toString d.day)
    ++ "T" ++ padStart2 (toString t.hours) ++ padStart2 (toString t.minutes) ++ "00"

/-- `formatUntilDate` (lines 167-175): dereferences `endDate.year`
unconditionally, so an absent end date raises a `TypeError`. -/
def formatUntilDate (endDate : Option CalDate) (_endTime : Option ClockTime) :
    Except String String :=
  match endDate with
  | none => .error "TypeError: cannot read properties of null (reading year)"
  | some d =>
    .ok (toString d.year ++ padStart2 (toString d.month) ++ padStart2 (toString d.day)
      ++ "T235959Z")

/-- The UTC components of the `new Date()` read by `generateEvent`. -/
structure UTCTime where
  year : Int
  month : Nat
  day : Nat
  hours : Nat
  minutes : Nat
  seconds : Nat
deriving DecidableEq, Repr

/-- `formatTimestamp` (lines 180-189). -/
def formatTimestamp (t : UTCTime) : String :=
  toString t.year ++ padStart2 (toString t.month) ++ padStart2 (toString t.day)
    ++ "T" ++ padStart2 (toString t.hours) ++ padStart2 (toString t.minutes)
    ++ padStart2 (toString t.seconds) ++ "Z"

/-- 32-bit signed wrap-around (`hash & hash` / `<<` coercion in JS). -/
def toInt32 (n : Int) : Int := (n + 2 ^ 31) % 2 ^ 32 - 2 ^ 31

/-- `simpleHash` (lines 203-211): `hash = ((hash << 5) - hash) + charCode`
wrapped to a signed 32-bit integer at each step. -/
def simpleHash (s : String) : Int :=
  s.data.foldl (fun h c => toInt32 (toInt32 (h * 32) - h + c.toNat)) 0

/-- `Math.abs(hash).toString(16)`. -/
def natToHexStr (n : Nat) : String := String.mk (Nat.toDigits 16 n)

/-- `generateUID` (lines 194-198). -/
def generateUID (e : CourseEvent) : String :=
  let st :=
    match e.startTime with
    | some t => toString t.hours ++ toString t.minutes
    | none => "undefinedundefined"
  let base := e.courseCode ++ "-" ++ e.sectionName ++ "-"
    ++ joinSep "" (e.days.map dayCodeStr) ++ "-" ++ st
  natToHexStr (simpleHash base).natAbs ++ "@ubc-workday-calendar"

def dayToNum : DayCode → Int
  | .SU => 0 | .MO => 1 | .TU => 2 | .WE => 3 | .TH => 4 | .FR => 5 | .SA => 6

/-- The bounded forward scan of `findFirstOccurrence`'s `for` loop: the first
`i` (starting at `start`, for `fuel` iterations) with `p i = true`. -/
def scanFirst (p : Nat → Bool) : Nat → Nat → Option Nat
  | 0, _ => none
  | fuel + 1, i => if p i then some i else scanFirst p fuel (i + 1)

/-- `findFirstOccurrence` (lines 124-148): look up to 7 days ahead of the
start date for the first date whose weekday is in the day set; fall back to
the original start date. -/
def findFirstOccurrence (startDate : CalDate) (days : List DayCode) : Option CalDate :=
  let targetDays := days.map dayToNum
  if targetDays.isEmpty then none
  else
    let n := dateToDays startDate
    match scanFirst (fun i => memB (weekdayOfDays (n + (i : Int))) targetDays) 7 0 with
    | some i => some (civilFromDays (n + (i : Int)))
    | none => some startDate

/-- `generateTimezone` (lines 39-57): a fixed constant block. -/
def generateTimezone : String :=
  "BEGIN:VTIMEZONE\nTZID:America/Vancouver\nBEGIN:DAYLIGHT\nTZOFFSETFROM:-0800\nTZOFFSETTO:-0700\nTZNAME:PDT\nDTSTART:19700308T020000\nRRULE:FREQ=YEARLY;BYMONTH=3;BYDAY=2SU\nEND:DAYLIGHT\nBEGIN:STANDARD\nTZOFFSETFROM:-0700\nTZOFFSETTO:-0800\nTZNAME:PST\nDTSTART:19701101T020000\nRRULE:FREQ=YEARLY;BYMONTH=11;BYDAY=1SU\nEND:STANDARD\nEND:VTIMEZONE"

/-- `generateEvent` (lines 62-119) producing its `lines` array.  `now` is the
`new Date()` read for `DTSTAMP`; `Except.error` models the `TypeError`
escaping `formatUntilDate` when the end date is absent. -/
def generateEventLines (now : UTCTime) (e : CourseEvent) :
    Except String (Option (List String)) :=
  match e.startDate, e.startTime, e.endTime with
  | some sd, some st, some et =>
    if e.days.isEmpty then .ok none
    else
      match findFirstOccurrence sd e.days with
      | none => .ok none
      | some firstDate =>
        match formatUntilDate e.endDate e.endTime with
        | .error msg => .error msg
        | .ok untilStr =>
          let dtstart := formatDateTime firstDate st
          let dtend := formatDateTime firstDate et
          let uid := generateUID e
          let summary := e.courseCode
            ++ (if e.sectionName ≠ "" then " (" ++ e.sectionName ++ ")" else "")
            ++ (if e.format ≠ "" then " - " ++ e.format else "")
          let descParts :=
            (if e.courseTitle ≠ "" then [e.courseTitle] else [])
            ++ (if e.instructor ≠ "" then ["Instructor: " ++ e.instructor] else [])
            ++ (if e.deliveryMode ≠ "" then ["Mode: " ++ e.deliveryMode] else [])
          let description := joinSep "\\n" descParts
          let rrule := "FREQ=WEEKLY;BYDAY=" ++ joinSep "," (e.days.map dayCodeStr)
            ++ ";UNTIL=" ++ untilStr
          .ok (some (
            [ "BEGIN:VEVENT",
              "UID:" ++ uid,
              "DTSTAMP:" ++ formatTimestamp now,
              "DTSTART;TZID=America/Vancouver:" ++ dtstart,
              "DTEND;TZID=America/Vancouver:" ++ dtend,
              "RRULE:" ++ rrule,
              "SUMMARY:" ++ escapeText summary ]
            ++ (if e.location ≠ "" then ["LOCATION:" ++ escapeText e.location] else [])
            ++ (if description ≠ "" then ["DESCRIPTION:" ++ escapeText description] else [])
            ++ ["END:VEVENT"]))
  | _, _, _ => .ok none

def generateEvent (now : UTCTime) (e : CourseEvent) : Except String (Option String) :=
  (generateEventLines now e).map (Option.map (joinSep "\r\n"))

/-- The per-event loop of `generate` (lines 24-29): unencodable events are
omitted; a thrown `TypeError` propagates. -/
def collectEvents (now : UTCTime) : List CourseEvent → Except String (List String)
  | [] => .ok []
  | e :: rest =>
    match generateEvent now e with
    | .error m => .error m
    | .ok none => collectEvents now rest
    | .ok (some v) => (collectEvents now rest).map (v :: ·)

/-- `generate` (lines 12-34). -/
def generate (now : UTCTime) (events : List CourseEvent) : Except String String :=
  let header :=
    [ "BEGIN:VCALENDAR", "VERSION:2.0", "PRODID:-//UBC Workday to Calendar//EN",
      "CALSCALE:GREGORIAN", "METHOD:PUBLISH", "X-WR-CALNAME:UBC Class Schedule",
      "X-WR-TIMEZONE:America/Vancouver", generateTimezone ]
  match collectEvents now events with
  | .error m => .error m
  | .ok body => .ok (joinSep "\r\n" (header ++ body ++ ["END:VCALENDAR"]))

end ICSGenerator

namespace UBCCal

/-! ### Supporting lemmas -/

lemma memB_iff {α : Type} [DecidableEq α] (v : α) (l : List α) :
    memB v l = true ↔ v ∈ l := by
  simp [memB, List.any_eq_true]

lemma memB_eq_false {α : Type} [DecidableEq α] (v : α) (l : List α) :
    memB v l = false ↔ v ∉ l := by
  rw [← Bool.not_eq_true, memB_iff]

end UBCCal

namespace ICSGenerator

open UBCCal

/-- The `for` loop returns the first index satisfying the predicate, when one
exists within the fuel window. -/
lemma scanFirst_found (p : Nat → Bool) : ∀ (fuel start : Nat),
    (∃ k, k < fuel ∧ p (start + k) = true) →
    ∃ k, k < fuel ∧ p (start + k) = true ∧ (∀ j, j < k → p (start + j) = false) ∧
      scanFirst p fuel start = some (start + k) := by
  intro fuel
  induction fuel with
  | zero =>
    rintro start ⟨k, hk, -⟩
    omega
  | succ n ih =>
    rintro start ⟨k, hk, hp⟩
    by_cases h0 : p start = true
    · refine ⟨0, by omega, by simpa using h0, by omega, ?_⟩
      simp [scanFirst, h0]
    · have h0f : p start = false := by
        cases hps : p start with
        | false => rfl
        | true => exact absurd hps h0
      have hk0 : k ≠ 0 := by
        intro hke
        subst hke
        simp only [Nat.add_zero] at hp
        exact h0 hp
      have hx : start + 1 + (k - 1) = start + k := by omega
      obtain ⟨k', hk', hp', hmin', heq'⟩ :=
        ih (start + 1) ⟨k - 1, by omega, by rw [hx]; exact hp⟩
      refine ⟨k' + 1, by omega, ?_, ?_, ?_⟩
      · have hy : start + (k' + 1) = start + 1 + k' := by omega
        rw [hy]; exact hp'
      · intro j hj
        cases j with
        | zero => simpa using h0f
        | succ j' =>
          have hz : start + (j' + 1) = start + 1 + j' := by omega
          rw [hz]
          exact hmin' j' (by omega)
      · have : scanFirst p (n + 1) start = scanFirst p n (start + 1) := by
          simp [scanFirst, h0f]
        rw [this, heq']
        congr 1
        omega

/-- With a non-empty day list the scan always succeeds and returns the
earliest matching offset. -/
lemma findFirstOccurrence_spec (d : CalDate) (D : List DayCode) (h : D ≠ []) :
    ∃ i : Nat, i < 7 ∧
      findFirstOccurrence d D = some (civilFromDays (dateToDays d + (i : Int))) ∧
      memB (weekdayOfDays (dateToDays d + (i : Int))) (D.map dayToNum) = true ∧
      ∀ j : Nat, j < i →
        memB (weekdayOfDays (dateToDays d + (j : Int))) (D.map dayToNum) = false := by
  obtain ⟨c, hc⟩ := List.exists_mem_of_ne_nil D h
  set nums := D.map dayToNum with hnums
  set n := dateToDays d with hn
  have htmem : dayToNum c ∈ nums := List.mem_map_of_mem _ hc
  have htb : 0 ≤ dayToNum c ∧ dayToNum c < 7 := by cases c <;> simp [dayToNum]
  set t := dayToNum c with ht
  -- the offset hitting weekday `t`
  have hkex : ∃ k : Nat, k < 7 ∧
      memB (weekdayOfDays (n + (k : Int))) nums = true := by
    refine ⟨((t - (n + 4)) % 7).toNat, ?_, ?_⟩
    · omega
    · have hcast : (((t - (n + 4)) % 7).toNat : Int) = (t - (n + 4)) % 7 := by
        have : 0 ≤ (t - (n + 4)) % 7 := by omega
        omega
      have hwd : weekdayOfDays (n + (((t - (n + 4)) % 7).toNat : Int)) = t := by
        unfold weekdayOfDays
        rw [hcast]
        omega
      rw [hwd, memB_iff]
      exact htmem
  obtain ⟨k, hk7, hkp⟩ := hkex
  obtain ⟨i, hi7, hip, himin, hieq⟩ :=
    scanFirst_found (fun i => memB (weekdayOfDays (n + (i : Int))) nums) 7 0
      ⟨k, hk7, by simpa using hkp⟩
  refine ⟨i, hi7, ?_, by simpa using hip, fun j hj => by simpa using himin j hj⟩
  unfold findFirstOccurrence
  have hne : nums.isEmpty = false := by
    rw [List.isEmpty_eq_false_iff_exists_mem]
    exact ⟨t, htmem⟩
  rw [← hnums, ← hn]
  simp only [hne, Bool.false_eq_true, if_false]
  have : scanFirst (fun i => memB (weekdayOfDays (n + (i : Int))) nums) 7 0 = some i := by
    simpa using hieq
  rw [this]

end ICSGenerator

namespace WorkdayParser

open UBCCal

/-- The strict branch never produces a flagged pattern. -/
lemma strictParse_error_false {cy : Int} {l : List Char} {r : MeetingPattern}
    (h : strictParse cy l = some r) : r.error = false := by
  simp only [strictParse] at h
  split at h
  · split at h
    · injection h with h'
      rw [← h']
    · exact absurd h (by simp)
  · exact absurd h (by simp)

/-- The fuzzy extractor never flags its result either. -/
lemma parsePatternWithRegex_error_false (cy : Int) (l : List Char) :
    (parsePatternWithRegex cy l).error = false := rfl

/-- `parseSinglePattern` always returns a pattern. -/
lemma parseSinglePatternL_isSome (cy : Int) (l : List Char) :
    (parseSinglePatternL cy l).isSome = true := by
  simp only [parseSinglePatternL]
  split <;> rfl

/-- Any pattern returned by `parseSinglePattern` is unflagged. -/
lemma parseSinglePatternL_error_false {cy : Int} {l : List Char} {p : MeetingPattern}
    (h : parseSinglePatternL cy l = some p) : p.error = false := by
  simp only [parseSinglePatternL] at h
  split at h
  case h_1 r heq =>
    injection h with h'
    rw [← h']
    split at heq
    · exact strictParse_error_false heq
    · exact absurd heq (by simp)
  case h_2 heq =>
    injection h with h'
    rw [← h']
    exact parsePatternWithRegex_error_false cy l

/-- Every pattern produced from a cell is unflagged. -/
lemma parseMeetingPatternsL_error_false (cy : Int) (l : List Char) :
    ∀ p ∈ parseMeetingPatternsL cy l, p.error = false := by
  intro p hp
  simp only [parseMeetingPatternsL] at hp
  split at hp
  · simp at hp
  · obtain ⟨b, -, hb⟩ := List.mem_map.mp hp
    subst hb
    cases hps : parseSinglePatternL cy b with
    | none =>
      exfalso
      have hs := parseSinglePatternL_isSome cy b
      rw [hps] at hs
      simp at hs
    | some q =>
      have hq : q.error = false := parseSinglePatternL_error_false hps
      exact hq

/-! ### First-seen deduplication (specification-side view of `parseDays`) -/

/-- Keep the first occurrence of each element, drop later duplicates: the
specification-level description of the `parseDays` accumulation loop. -/
def firstSeen {α : Type} [DecidableEq α] : List α → List α
  | [] => []
  | a :: l => a :: firstSeen (l.filter fun v => v ≠ a)
termination_by l => l.length
decreasing_by
  simp only [List.length_cons]
  exact Nat.lt_succ_of_le (List.length_filter_le _ _)

lemma mem_of_mem_firstSeen {α : Type} [DecidableEq α] :
    ∀ {l : List α} {x : α}, x ∈ firstSeen l → x ∈ l := by
  intro l
  induction l using firstSeen.induct with
  | case1 => intro x hx; simp [firstSeen] at hx
  | case2 a l ih =>
    intro x hx
    rw [firstSeen] at hx
    rcases List.mem_cons.mp hx with h | h
    · simp [h]
    · exact List.mem_cons_of_mem a (List.mem_of_mem_filter (ih h))

lemma firstSeen_nodup {α : Type} [DecidableEq α] : ∀ l : List α, (firstSeen l).Nodup := by
  intro l
  induction l using firstSeen.induct with
  | case1 => simp [firstSeen]
  | case2 a l ih =>
    rw [firstSeen]
    refine List.nodup_cons.mpr ⟨fun ha => ?_, ih⟩
    have := List.of_mem_filter (mem_of_mem_firstSeen ha)
    simp at this

/-- The body of the `parseDays` token loop, restricted to matched tokens. -/
lemma foldl_match_eq_filterMap (ts : List (List Char)) (acc : List UBCCal.DayCode) :
    ts.foldl (fun acc t =>
      match matchDayToken t with
      | some v => if memB v acc then acc else acc ++ [v]
      | none => acc) acc
    = (ts.filterMap matchDayToken).foldl
        (fun acc v => if memB v acc then acc else acc ++ [v]) acc := by
  induction ts generalizing acc with
  | nil => rfl
  | cons t ts ih => cases h : matchDayToken t <;> simp [List.filterMap_cons, h, ih]

/-- The accumulation loop performs exactly a first-seen deduplication. -/
lemma foldl_dedup_eq (l : List UBCCal.DayCode) : ∀ acc : List UBCCal.DayCode,
    l.foldl (fun acc v => if memB v acc then acc else acc ++ [v]) acc
    = acc ++ firstSeen (l.filter fun v => !memB v acc) := by
  induction l with
  | nil => intro acc; simp [firstSeen]
  | cons a l ih =>
    intro acc
    by_cases ha : memB a acc = true
    · rw [List.foldl_cons]
      simp only [ha, if_true]
      rw [ih]
      congr 2
      rw [List.filter_cons_of_neg (by simp [ha])]
    · have ha' : memB a acc = false := by
        cases hm : memB a acc with
        | false => rfl
        | true => exact absurd hm ha
      rw [List.foldl_cons]
      simp only [ha', Bool.false_eq_true, if_false]
      rw [ih]
      rw [List.filter_cons_of_pos (by simp [ha'])]
      rw [firstSeen]
      have hfa : (l.filter fun v => !memB v acc).filter (fun v => v ≠ a)
          = l.filter fun v => !memB v (acc ++ [a]) := by
        rw [List.filter_filter]
        apply List.filter_congr
        intro x _
        simp only [memB, List.any_append, List.any_cons, List.any_nil,
          Bool.or_false, Bool.not_or, ne_eq, decide_not]
        have hx : decide (x = a) = decide (a = x) := by simp [eq_comm]
        rw [hx, Bool.and_comm]
      rw [hfa]
      simp

lemma parseDaysL_eq_firstSeen (l : List Char) :
    parseDaysL l
      = firstSeen ((splitWs (normalizeDaysStr l)).filterMap matchDayToken) := by
  unfold parseDaysL
  rw [foldl_match_eq_filterMap, foldl_dedup_eq]
  simp [memB]

lemma parseDaysL_nodup (l : List Char) : (parseDaysL l).Nodup := by
  rw [parseDaysL_eq_firstSeen]
  exact firstSeen_nodup _

/-! ### The pipe split of the strict branch -/

lemma splitCharGo_length_pos (sep : Char) :
    ∀ (l cur : List Char), 1 ≤ (splitCharGo sep l cur).length := by
  intro l
  induction l with
  | nil => intro cur; simp [splitCharGo]
  | cons c rest ih =>
    intro cur
    rw [splitCharGo]
    split
    · simp
    · exact ih _

/-- A string containing the separator splits into at least two fields. -/
lemma splitChar_length_ge_two {sep : Char} {l : List Char}
    (h : memB sep l = true) : 2 ≤ (splitChar sep l).length := by
  suffices hgen : ∀ (l cur : List Char), memB sep l = true →
      2 ≤ (splitCharGo sep l cur).length from hgen l [] h
  intro l
  induction l with
  | nil => intro cur hc; simp [memB] at hc
  | cons c rest ih =>
    intro cur hc
    rw [splitCharGo]
    split
    · have := splitCharGo_length_pos sep rest []
      simp only [List.length_cons]
      omega
    · apply ih
      rw [memB_iff] at hc ⊢
      rcases List.mem_cons.mp hc with h' | h'
      · simp_all
      · exact h'

end WorkdayParser

section ClaimInputs

open UBCCal WorkdayParser ICSGenerator

/-! Concrete inputs used by the claim theorems below. -/

/-- A fixed `new Date()` reading for encoder evaluations. -/
def evalNow : UTCTime := ⟨2025, 1, 15, 12, 0, 0⟩

/-- A second, distinct timestamp. -/
def evalNow2 : UTCTime := ⟨2026, 2, 3, 4, 5, 6⟩

/-- A valid event whose end date is absent (permitted by the data model:
degraded recurrence). -/
def c1NoEndDate : CourseEvent :=
  { courseCode := "CPSC 110", courseTitle := "Computation", sectionName := "CPSC 110-101",
    format := "Lecture", deliveryMode := "", instructor := "", days := [.MO, .WE],
    startTime := some ⟨10, 0⟩, endTime := some ⟨11, 0⟩,
    startDate := some ⟨2024, 9, 3⟩, endDate := none }

/-- An event missing its start date. -/
def c1NoStartDate : CourseEvent :=
  { courseCode := "CPSC 110", courseTitle := "", sectionName := "", format := "",
    deliveryMode := "", instructor := "", days := [.MO, .WE],
    startTime := some ⟨10, 0⟩, endTime := some ⟨11, 0⟩,
    startDate := none, endDate := some ⟨2024, 12, 5⟩ }

/-- An event missing its start time. -/
def c1NoStartTime : CourseEvent :=
  { courseCode := "CPSC 110", courseTitle := "", sectionName := "", format := "",
    deliveryMode := "", instructor := "", days := [.MO, .WE],
    startTime := none, endTime := some ⟨11, 0⟩,
    startDate := some ⟨2024, 9, 3⟩, endDate := some ⟨2024, 12, 5⟩ }

/-- An event missing its end time. -/
def c1NoEndTime : CourseEvent :=
  { courseCode := "CPSC 110", courseTitle := "", sectionName := "", format := "",
    deliveryMode := "", instructor := "", days := [.MO, .WE],
    startTime := some ⟨10, 0⟩, endTime := none,
    startDate := some ⟨2024, 9, 3⟩, endDate := some ⟨2024, 12, 5⟩ }

/-- An event with an empty day set. -/
def c1NoDays : CourseEvent :=
  { courseCode := "CPSC 110", courseTitle := "", sectionName := "", format := "",
    deliveryMode := "", instructor := "", days := [],
    startTime := some ⟨10, 0⟩, endTime := some ⟨11, 0⟩,
    startDate := some ⟨2024, 9, 3⟩, endDate := some ⟨2024, 12, 5⟩ }

/-- C3: a fully well-formed row. -/
def c3Row1 : Row :=
  [ ("Course Listing", "CPSC 110 - Computation, Programs, and Programming"),
    ("Section", "CPSC 110-101"), ("Instructional Format", "Lecture"),
    ("Delivery Mode", "In Person"),
    ("Meeting Patterns", "Mon Wed | 10:00 - 11:00 | 2024-09-03 - 2024-12-05 | Room 200"),
    ("Instructor", "Jane Doe"), ("Days", ""), ("Start Time", ""), ("End Time", "") ]

/-- C3: a row with an unparseable meeting-pattern cell but populated explicit
Days / Start Time / End Time columns (and no date information anywhere). -/
def c3Row2 : Row :=
  [ ("Course Listing", "MATH 100 - Differential Calculus"),
    ("Section", "MATH 100-101"), ("Instructional Format", "Lecture"),
    ("Delivery Mode", "In Person"), ("Meeting Patterns", "TBD"),
    ("Instructor", "John Smith"), ("Days", "Mon Fri"),
    ("Start Time", "9:00 AM"), ("End Time", "10:00 AM") ]

/-- C3: the same second row with explicit Start Date / End Date columns also
populated. -/
def c3Row2d : Row :=
  [ ("Course Listing", "MATH 100 - Differential Calculus"),
    ("Section", "MATH 100-101"), ("Instructional Format", "Lecture"),
    ("Delivery Mode", "In Person"), ("Meeting Patterns", "TBD"),
    ("Instructor", "John Smith"), ("Days", "Mon Fri"),
    ("Start Time", "9:00 AM"), ("End Time", "10:00 AM"),
    ("Start Date", "2024-09-03"), ("End Date", "2024-12-05") ]

/-- The event parsed from `c3Row1`. -/
def c3Event1 : CourseEvent :=
  { courseCode := "CPSC 110", courseTitle := "Computation, Programs, and Programming",
    sectionName := "CPSC 110-101", format := "Lecture", deliveryMode := "In Person",
    instructor := "Jane Doe", days := [.MO, .WE],
    startTime := some ⟨10, 0⟩, endTime := some ⟨11, 0⟩,
    startDate := some ⟨2024, 9, 3⟩, endDate := some ⟨2024, 12, 5⟩,
    location := "Room 200",
    raw := "Mon Wed | 10:00 - 11:00 | 2024-09-03 - 2024-12-05 | Room 200" }

/-- The event parsed from `c3Row2`: days and times from the explicit columns,
no dates. -/
def c3Event2 : CourseEvent :=
  { courseCode := "MATH 100", courseTitle := "Differential Calculus",
    sectionName := "MATH 100-101", format := "Lecture", deliveryMode := "In Person",
    instructor := "John Smith", days := [.MO, .FR],
    startTime := some ⟨9, 0⟩, endTime := some ⟨10, 0⟩,
    startDate := none, endDate := none, location := "", raw := "TBD" }

/-- The event parsed from `c3Row2d`: days, times and dates from the explicit
columns. -/
def c3Event2d : CourseEvent :=
  { courseCode := "MATH 100", courseTitle := "Differential Calculus",
    sectionName := "MATH 100-101", format := "Lecture", deliveryMode := "In Person",
    instructor := "John Smith", days := [.MO, .FR],
    startTime := some ⟨9, 0⟩, endTime := some ⟨10, 0⟩,
    startDate := some ⟨2024, 9, 3⟩, endDate := some ⟨2024, 12, 5⟩,
    location := "", raw := "TBD" }

/-- The trimmed fields of a pipe-delimited block, as split by the strict
branch of `parseSinglePattern`. -/
def pipeFields (l : List Char) : List (List Char) := (splitChar '|' l).map trimL

/-- Canonical two-digit rendering of a minute count. -/
def twoDigitMinutes (m : Nat) : String :=
  if m < 10 then "0" ++ toString m else toString m

/-- C9: a concrete valid event. -/
def c9Event : CourseEvent :=
  { courseCode := "CPSC 110", courseTitle := "Computation", sectionName := "CPSC 110-101",
    format := "Lecture", deliveryMode := "In Person", instructor := "Jane Doe",
    days := [.MO], startTime := some ⟨10, 0⟩, endTime := some ⟨11, 0⟩,
    startDate := some ⟨2024, 9, 3⟩, endDate := some ⟨2024, 12, 5⟩,
    location := "Room 200", raw := "" }

end ClaimInputs

namespace ICSGenerator

open UBCCal

lemma findFirstOccurrence_isSome (d : CalDate) {D : List DayCode} (h : D ≠ []) :
    ∃ fd, findFirstOccurrence d D = some fd := by
  obtain ⟨i, -, heq, -, -⟩ := findFirstOccurrence_spec d D h
  exact ⟨_, heq⟩

end ICSGenerator

section Claims

open UBCCal WorkdayParser ICSGenerator

/-- C1: an event missing start date, start time, end time, or with an empty
day set is encoded as `null` by `generateEvent` and omitted by `generate`;
but a valid event whose end date is absent — which the data model permits —
makes the encoder THROW a `TypeError` (`formatUntilDate` dereferences
`endDate.year` with no guard), contradicting the claim that `generate` never
fails. -/
theorem c1_generate_throws_on_absent_end_date :
    generateEvent evalNow c1NoStartDate = .ok none ∧
    generateEvent evalNow c1NoStartTime = .ok none ∧
    generateEvent evalNow c1NoEndTime = .ok none ∧
    generateEvent evalNow c1NoDays = .ok none ∧
    generate evalNow [c1NoStartDate, c1NoStartTime, c1NoEndTime, c1NoDays]
      = generate evalNow [] ∧
    generateEvent evalNow c1NoEndDate
      = .error "TypeError: cannot read properties of null (reading year)" ∧
    generate evalNow [c1NoEndDate]
      = .error "TypeError: cannot read properties of null (reading year)" :=
  ⟨rfl, rfl, rfl, rfl, rfl, rfl, rfl⟩

/-- C2: the day-token table maps `'r'` to TH and `'s'` to SA as the claim
states, but because the matching loop accepts the FIRST map key that is a
prefix of a multi-letter token, the entry `'t'` (Tuesday) shadows the
Thursday family — "Thursday", "Thurs", "Thu", "Th" all map to TU — and the
entry `'s'` (Saturday) shadows the Sunday family — "Su", "Sun", "Sunday" all
map to SA — contradicting the claim (and the dayMap's own TH/SU entries,
which are unreachable). -/
theorem c2_thursday_maps_to_tuesday :
    parseDays "Mon" = [.MO] ∧
    parseDays "R" = [.TH] ∧
    parseDays "S" = [.SA] ∧
    parseDays "Thursday" = [.TU] ∧
    parseDays "Thurs" = [.TU] ∧
    parseDays "Thu" = [.TU] ∧
    parseDays "Th" = [.TU] ∧
    parseDays "Su" = [.SA] ∧
    parseDays "Sun" = [.SA] ∧
    parseDays "Sunday" = [.SA] := by
  refine ⟨?_, ?_, ?_, ?_, ?_, ?_, ?_, ?_, ?_, ?_⟩ <;> decide

/-- C3 counterexample: on the two-row input whose second row has an
unparseable meeting-pattern cell and populated explicit Days / Start Time /
End Time columns (and no date columns), parsing does produce exactly two
events with the second one's days and times taken from the explicit columns —
but the second event, lacking any start date, is encoded as `null`, so "both
encodable" is false. -/
theorem c3_second_event_not_encodable :
    parseRows 2025 [c3Row1, c3Row2] = [c3Event1, c3Event2] ∧
    c3Event2.days = parseDays "Mon Fri" ∧
    c3Event2.startTime = normalizeTime "9:00 AM" ∧
    c3Event2.endTime = normalizeTime "10:00 AM" ∧
    (∃ s, generateEvent evalNow c3Event1 = .ok (some s)) ∧
    generateEvent evalNow c3Event2 = .ok none :=
  ⟨by decide, by decide, by decide, by decide, ⟨_, rfl⟩, rfl⟩

/-- C3 amended: the two-row scenario yields exactly two meeting events with
the second one's days and times sourced from the explicit columns; the second
event is encodable only when a start date is also available — with explicit
Start Date / End Date columns populated as well, both events are encodable. -/
theorem c3_amended_two_rows :
    parseRows 2025 [c3Row1, c3Row2d] = [c3Event1, c3Event2d] ∧
    c3Event2d.days = parseDays "Mon Fri" ∧
    c3Event2d.startTime = normalizeTime "9:00 AM" ∧
    c3Event2d.endTime = normalizeTime "10:00 AM" ∧
    c3Event2d.startDate = parseDate 2025 "2024-09-03" ∧
    c3Event2d.endDate = parseDate 2025 "2024-12-05" ∧
    (∃ s, generateEvent evalNow c3Event1 = .ok (some s)) ∧
    (∃ s, generateEvent evalNow c3Event2d = .ok (some s)) :=
  ⟨by decide, by decide, by decide, by decide, by decide, by decide, ⟨_, rfl⟩, ⟨_, rfl⟩⟩

/-- C4: the example block parses to exactly the claimed fields; and in
general, a block containing a pipe is split into trimmed fields
[days, time range, optional date range, optional location], each handed to
its normalizer, with the strict branch succeeding exactly when the day field
yields at least one day code (falling back to the fuzzy extractor
otherwise). -/
theorem c4_strict_pipe_parsing :
    (parseSinglePattern 2025 "Mon Wed | 10:00 - 11:00 | 2024-09-03 - 2024-12-05 | Room 200" =
      some { days := [.MO, .WE], startTime := some ⟨10, 0⟩, endTime := some ⟨11, 0⟩,
             startDate := some ⟨2024, 9, 3⟩, endDate := some ⟨2024, 12, 5⟩,
             location := "Room 200" }) ∧
    ∀ (cy : Int) (s : String), memB '|' s.data = true →
      ((strictParse cy s.data).isSome = true
        ↔ parseDaysL ((pipeFields s.data).headD []) ≠ []) ∧
      (parseSinglePattern cy s =
        match strictParse cy s.data with
        | some r => some r
        | none => some (parsePatternWithRegex cy s.data)) ∧
      ∀ r, strictParse cy s.data = some r →
        r.days = parseDaysL ((pipeFields s.data).headD []) ∧
        r.startTime = (parseTimeRangeL (((pipeFields s.data).drop 1).headD [])).1 ∧
        r.endTime = (parseTimeRangeL (((pipeFields s.data).drop 1).headD [])).2 ∧
        r.startDate = (if 2 < (pipeFields s.data).length then
          (parseDateRangeL cy (((pipeFields s.data).drop 2).headD [])).1 else none) ∧
        r.endDate = (if 2 < (pipeFields s.data).length then
          (parseDateRangeL cy (((pipeFields s.data).drop 2).headD [])).2 else none) ∧
        r.location = String.mk (if 3 < (pipeFields s.data).length then
          ((pipeFields s.data).drop 3).headD [] else []) := by
  refine ⟨by decide, ?_⟩
  intro cy s h
  have hlen : 2 ≤ (List.map trimL (splitChar '|' s.data)).length := by
    rw [List.length_map]
    exact splitChar_length_ge_two h
  refine ⟨?_, ?_, ?_⟩
  · simp only [strictParse, pipeFields]
    rw [if_pos hlen]
    by_cases hd : parseDaysL ((List.map trimL (splitChar '|' s.data)).headD []) ≠ []
    · simp [hd]
    · simp [hd]
  · simp only [parseSinglePattern, parseSinglePatternL, h, if_true]
  · intro r hr
    simp only [strictParse] at hr
    rw [if_pos hlen] at hr
    split at hr
    · injection hr with hr'
      subst hr'
      refine ⟨?_, ?_, ?_, ?_, ?_, ?_⟩ <;> simp only [pipeFields] <;>
        first
        | trivial
        | (split <;> rfl)
    · exact absurd hr (by simp)

/-- C4 witness: the general clause applied to a concrete pipe block. -/
theorem c4_strict_pipe_parsing_witness :
    parseSinglePattern 0 "Mon|9:00 - 10:00" =
      match strictParse 0 "Mon|9:00 - 10:00".data with
      | some r => some r
      | none => some (parsePatternWithRegex 0 "Mon|9:00 - 10:00".data) :=
  (c4_strict_pipe_parsing.2 0 "Mon|9:00 - 10:00" (by decide)).2.1

/-- C5 counterexample: "9 PM" has the claimed form `H` plus an AM/PM marker,
but `normalizeTime` returns `null` for it (the implicit ":00" is appended
after the marker, yielding "9 PM:00", in which no hour:minute pattern is
found) instead of the 24-hour value {21, 0} the claim requires. -/
theorem c5_bare_hour_with_marker_is_null :
    normalizeTime "9 PM" = none ∧ normalizeTime "9 PM" ≠ some ⟨21, 0⟩ := by
  refine ⟨by decide, by decide⟩

set_option maxHeartbeats 4000000 in
/-- C5 amended: for `H:MM` forms the 24-hour conversion rules hold exactly as
claimed (PM with hour ≠ 12 adds 12, AM with hour 12 gives 0, no marker is the
identity), bare digit strings receive minutes 00, and the spec's four
examples hold; but a bare hour followed by a marker ("9 PM") yields `null`,
as do strings in which no hour:minute pattern is found — and the function
never throws (it is total by construction). -/
theorem c5_normalizeTime_amended :
    (∀ h : Nat, h < 24 → ∀ m : Nat, m < 60 →
      normalizeTime (toString h ++ ":" ++ twoDigitMinutes m) = some ⟨h, m⟩) ∧
    (∀ h : Nat, h < 100 → normalizeTime (toString h) = some ⟨h, 0⟩) ∧
    (∀ h : Nat, h < 13 → ∀ m : Nat, m < 60 → 1 ≤ h →
      normalizeTime (toString h ++ ":" ++ twoDigitMinutes m ++ " AM")
        = some ⟨if h = 12 then 0 else h, m⟩ ∧
      normalizeTime (toString h ++ ":" ++ twoDigitMinutes m ++ " PM")
        = some ⟨if h = 12 then 12 else h + 12, m⟩) ∧
    normalizeTime "2:00 PM" = some ⟨14, 0⟩ ∧
    normalizeTime "12:00 AM" = some ⟨0, 0⟩ ∧
    normalizeTime "12:30 PM" = some ⟨12, 30⟩ ∧
    normalizeTime "9" = some ⟨9, 0⟩ ∧
    normalizeTime "" = none ∧
    normalizeTime "noon" = none ∧
    normalizeTime "9 PM" = none := by
  refine ⟨by decide, by decide, by decide, by decide, by decide, by decide,
    by decide, by decide, by decide, by decide⟩

/-- C5 witness: the amended 12-hour rule applied at 2:00 PM. -/
theorem c5_normalizeTime_amended_witness :
    normalizeTime (toString 2 ++ ":" ++ twoDigitMinutes 0 ++ " PM") = some ⟨14, 0⟩ :=
  (c5_normalizeTime_amended.2.2.1 2 (by decide) 0 (by decide) (by decide)).2

/-- C6: `parseDate` tries ISO first (even when a textual date also occurs
earlier in the string), then the bare-numeric serial rule (epoch: serial
25569 is 1970-01-01; accepted only above 20000, so 20000 itself and small
numbers fall through), then the textual month-table form (with the current
year substituted when the year is omitted), and returns null on total
failure; the three claimed examples evaluate as stated, with "45538"
decoding to 2024-09-03 (a date in 2024). -/
theorem c6_parseDate_branches :
    ∀ cy : Int,
      parseDate cy "2024-09-03" = some ⟨2024, 9, 3⟩ ∧
      parseDate cy "Sep 3, 2024" = some ⟨2024, 9, 3⟩ ∧
      parseDate cy "45538" = some ⟨2024, 9, 3⟩ ∧
      parseDate cy "25569" = some ⟨1970, 1, 1⟩ ∧
      parseDate cy "20000" = none ∧
      parseDate cy "12345" = none ∧
      parseDate cy "Sep 3" = some ⟨cy, 9, 3⟩ ∧
      parseDate cy "Jan 5 2024-09-03" = some ⟨2024, 9, 3⟩ ∧
      parseDate cy "hello" = none ∧
      parseDate cy "" = none :=
  fun _ => ⟨rfl, rfl, rfl, rfl, rfl, rfl, rfl, rfl, rfl, rfl⟩

/-- C7: for every start date and non-empty list of day codes,
`findFirstOccurrence` returns the date `i` days after the start date for the
least `i < 7` whose weekday lies in the day set (such an `i` always exists);
in particular from Sunday 2024-09-01 with {MO, WE} it returns 2024-09-02. -/
theorem c7_findFirstOccurrence_earliest :
    (∀ (d : CalDate) (D : List DayCode), D ≠ [] →
      ∃ i : Nat, i < 7 ∧
        findFirstOccurrence d D = some (civilFromDays (dateToDays d + (i : Int))) ∧
        memB (weekdayOfDays (dateToDays d + (i : Int))) (D.map dayToNum) = true ∧
        ∀ j : Nat, j < i →
          memB (weekdayOfDays (dateToDays d + (j : Int))) (D.map dayToNum) = false) ∧
    findFirstOccurrence ⟨2024, 9, 1⟩ [.MO, .WE] = some ⟨2024, 9, 2⟩ ∧
    weekdayOfDays (dateToDays ⟨2024, 9, 1⟩) = 0 :=
  ⟨findFirstOccurrence_spec, by decide, by decide⟩

/-- C7 witness: the general clause at Sunday 2024-09-01 with {MO}. -/
theorem c7_findFirstOccurrence_earliest_witness :
    ∃ i : Nat, i < 7 ∧
      findFirstOccurrence ⟨2024, 9, 1⟩ [.MO]
        = some (civilFromDays (dateToDays ⟨2024, 9, 1⟩ + (i : Int))) ∧
      memB (weekdayOfDays (dateToDays ⟨2024, 9, 1⟩ + (i : Int)))
        ([DayCode.MO].map dayToNum) = true ∧
      ∀ j : Nat, j < i →
        memB (weekdayOfDays (dateToDays ⟨2024, 9, 1⟩ + (j : Int)))
          ([DayCode.MO].map dayToNum) = false :=
  c7_findFirstOccurrence_earliest.1 ⟨2024, 9, 1⟩ [.MO] (by decide)

/-- C8: `parseDays` never produces duplicate codes and its output is exactly
the first-seen deduplication of the codes matched from the tokens in order
(unmatched tokens are dropped by the `filterMap`, never raising an error);
in particular "Mon, Wed, Mon" yields [MO, WE]. -/
theorem c8_parseDays_first_seen_nodup :
    ∀ s : String,
      (parseDays s).Nodup ∧
      parseDays s
        = firstSeen ((splitWs (normalizeDaysStr s.data)).filterMap matchDayToken) ∧
      parseDays "Mon, Wed, Mon" = [.MO, .WE] :=
  fun s => ⟨parseDaysL_nodup s.data, parseDaysL_eq_firstSeen s.data, by decide⟩

/-- C9: encoding the same valid event (days non-empty, start date, both
times, end date present) at two different creation instants yields line lists
that agree everywhere except at index 2, the `DTSTAMP` line — in particular
the UID line and every other line are functions of the event alone. -/
theorem c9_deterministic_except_dtstamp :
    ∀ (e : CourseEvent) (t1 t2 : UTCTime) (sd : CalDate) (st et : ClockTime)
      (ed : CalDate),
      e.startDate = some sd → e.startTime = some st → e.endTime = some et →
      e.endDate = some ed → e.days ≠ [] →
      ∃ l1 l2 : List String,
        generateEventLines t1 e = .ok (some l1) ∧
        generateEventLines t2 e = .ok (some l2) ∧
        l1.eraseIdx 2 = l2.eraseIdx 2 ∧
        l1[2]? = some ("DTSTAMP:" ++ formatTimestamp t1) ∧
        l2[2]? = some ("DTSTAMP:" ++ formatTimestamp t2) := by
  intro e t1 t2 sd st et ed hsd hst het hed hdays
  cases hD : e.days with
  | nil => exact absurd hD hdays
  | cons a ds =>
    obtain ⟨fd, hfd⟩ := findFirstOccurrence_isSome sd (show a :: ds ≠ [] by simp)
    unfold generateEventLines
    rw [hsd, hst, het, hed, hD]
    dsimp only
    rw [hfd]
    exact ⟨_, _, rfl, rfl, rfl, rfl, rfl⟩

/-- C9 witness: the theorem applied to a concrete valid event and two
distinct timestamps. -/
theorem c9_deterministic_except_dtstamp_witness :
    ∃ l1 l2 : List String,
      generateEventLines evalNow c9Event = .ok (some l1) ∧
      generateEventLines evalNow2 c9Event = .ok (some l2) ∧
      l1.eraseIdx 2 = l2.eraseIdx 2 ∧
      l1[2]? = some ("DTSTAMP:" ++ formatTimestamp evalNow) ∧
      l2[2]? = some ("DTSTAMP:" ++ formatTimestamp evalNow2) :=
  c9_deterministic_except_dtstamp c9Event evalNow evalNow2
    ⟨2024, 9, 3⟩ ⟨10, 0⟩ ⟨11, 0⟩ ⟨2024, 12, 5⟩ rfl rfl rfl rfl (by decide)

/-- C10: `parseSinglePattern` always returns a record (the fuzzy extractor
is total), hence no pattern produced by `parseMeetingPatterns` ever carries
the low-confidence error flag, and the row-parser condition guarding the
explicit-column synthesis branch (zero patterns, or one flagged pattern) is
equivalent to the cell having produced zero blocks. -/
theorem c10_extractor_total_no_error_flag :
    ∀ (cy : Int) (s : String),
      (parseSinglePattern cy s).isSome = true ∧
      (∀ p ∈ parseMeetingPatterns cy s, p.error = false) ∧
      ((parseMeetingPatterns cy s = [] ∨
        ∃ p, parseMeetingPatterns cy s = [p] ∧ p.error = true)
        ↔ parseMeetingPatterns cy s = []) := by
  intro cy s
  refine ⟨parseSinglePatternL_isSome cy s.data,
    parseMeetingPatternsL_error_false cy s.data, ?_, ?_⟩
  · rintro (h | ⟨p, hp, he⟩)
    · exact h
    · exfalso
      have hf : p.error = false :=
        parseMeetingPatternsL_error_false cy s.data p
          (by rw [show parseMeetingPatternsL cy s.data = [p] from hp]; simp)
      rw [hf] at he
      exact absurd he (by simp)
  · intro h
    exact Or.inl h

/-- C10 witness: the no-error-flag clause at the "TBD" cell. -/
theorem c10_extractor_total_witness :
    ({ days := [], startTime := none, endTime := none, startDate := none,
       endDate := none, location := "", raw := "TBD", error := false }
      : MeetingPattern).error = false :=
  (c10_extractor_total_no_error_flag 2025 "TBD").2.1 _ (by decide)

end Claims
